import Mathlib

/-! Object operations of `openstack/storage/v1/objects/requests.go`

A shallow embedding of the seven request-building functions of the package
(`List`, `Download`, `Create`, `Copy`, `Delete`, `Get`, `Update`) and proofs
about the requests they hand to the HTTP executor.

* A Go `map[string]string` is an association list (`GoMap`); a well-formed map
  has pairwise distinct keys (`GoMap.WF`).  `for k, v := range m` visits the
  entries in the order of the list, so a statement for every list is a
  statement for every iteration order.
* The collaborators that are outside the file (`storage.Client`,
  `utils.BuildQuery`, `perigee.Request`, the `Content` source) are parameters.
* Every function returns a `Run`: the executor calls it issued, the reads it
  made on the content source, and how it ended (returned values or a run-time
  panic).
-/

set_option autoImplicit false

/-! ## Go values -/

/-- A Go `error` value; `Option GoError` is the interface, `none` being `nil`. -/
structure GoError where
  msg : String
  deriving DecidableEq, Repr

/-- A Go `map[string]string` as an association list. -/
abbrev GoMap := List (String × String)

/-- The keys of a map, in storage order. -/
def GoMap.keys (m : GoMap) : List String := m.map Prod.fst

/-- Well-formed map: no key occurs twice. -/
def GoMap.WF (m : GoMap) : Prop := m.keys.Nodup

instance (m : GoMap) : Decidable m.WF := by
  unfold GoMap.WF; exact inferInstance

/-- Map lookup `m[k]` with presence flag: the value of the first entry under `k`. -/
def GoMap.get : GoMap → String → Option String
  | [], _ => none
  | (a, b) :: m, k => if a = k then some b else GoMap.get m k

/-- Map assignment `m[k] = v`: replace the entry under `k`, or add one. -/
def GoMap.set : GoMap → String → String → GoMap
  | [], k, v => [(k, v)]
  | (a, b) :: m, k, v => if a = k then (k, v) :: m else (a, b) :: GoMap.set m k v

/-- A Go `[]byte`; the `nil` slice and the empty slice are both `[]`. -/
abbrev Bytes := List UInt8

/-- The fields of `net/http.Response` that matter here (the value is passed through). -/
structure HttpResponse where
  StatusCode : Nat
  Body : Bytes
  deriving DecidableEq, Repr

/-- Modelled from the spec: `perigee.Response`, of which the source reads only the
field `HttpResponse`. -/
structure Response where
  HttpResponse : HttpResponse
  deriving DecidableEq, Repr

/-- The fields of `perigee.Options` the source sets; unset fields keep Go zero values. -/
structure Options where
  MoreHeaders : GoMap := []
  Accept : String := ""
  ReqBody : Bytes := []
  deriving DecidableEq, Repr

/-- One call `perigee.Request(method, url, opts)`. -/
structure Call where
  method : String
  url : String
  opts : Options
  deriving DecidableEq, Repr

/-- Modelled from the spec: the `Content` source of `CreateOpts`, of which the source
uses `Len()` and `Read(p)`.  `Read n` is the call on a buffer of length `n`: the bytes
it stores at the front of the buffer and the error it returns. -/
structure ContentSource where
  Len : Nat
  Read : Nat → Bytes × Option GoError

/-- The `*storage.Client` methods the source calls. -/
structure Client where
  GetHeaders : GoMap × Option GoError
  GetContainerURL : String → String
  GetObjectURL : String → String → String

/-- The package-level collaborators: `utils.BuildQuery` and `perigee.Request`.
`Request` returns a `*perigee.Response` (`none` is the nil pointer) and an error. -/
structure Collaborators where
  BuildQuery : GoMap → String
  Request : Call → Option Response × Option GoError

/-- How a function ended. -/
inductive Outcome (α : Type) where
  | returned (a : α)
  | panicked
  deriving DecidableEq, Repr

/-- What a function did: executor calls issued, buffer lengths of the reads on the
content source, and the outcome. -/
structure Run (α : Type) where
  requests : List Call
  reads : List Nat
  outcome : Outcome α
  deriving DecidableEq, Repr

/-! ## Option bundles (fields as the source reads them) -/

/-- The fields of `ListOpts` the source reads. -/
structure ListOpts where
  Container : String := ""
  Params : GoMap := []
  Full : Bool := false

/-- The fields of `DownloadOpts` the source reads. -/
structure DownloadOpts where
  Container : String := ""
  Name : String := ""
  Headers : GoMap := []
  Params : GoMap := []

/-- The fields of `CreateOpts` the source reads; `Content` is a pointer, `none` being nil. -/
structure CreateOpts where
  Container : String := ""
  Name : String := ""
  Content : Option ContentSource := none
  Metadata : GoMap := []
  Headers : GoMap := []
  Params : GoMap := []

/-- Modelled from the spec: the source reads every field but `Params`, which is the
query mapping of the specification's option bundles. -/
structure CopyOpts where
  Container : String := ""
  Name : String := ""
  NewContainer : String := ""
  NewName : String := ""
  Metadata : GoMap := []
  Params : GoMap := []

/-- Modelled from the spec: the source reads `Container`, `Name` and `Params`; the
`Headers` mapping is the per-call custom headers of the specification's option bundles. -/
structure DeleteOpts where
  Container : String := ""
  Name : String := ""
  Headers : GoMap := []
  Params : GoMap := []

/-- Modelled from the spec: the source reads every field but `Params`, which is the
query mapping of the specification's option bundles. -/
structure GetOpts where
  Container : String := ""
  Name : String := ""
  Headers : GoMap := []
  Params : GoMap := []

/-- Modelled from the spec: the source reads every field but `Params`, which is the
query mapping of the specification's option bundles. -/
structure UpdateOpts where
  Container : String := ""
  Name : String := ""
  Metadata : GoMap := []
  Headers : GoMap := []
  Params : GoMap := []

/-! ## The loops and the buffer -/

/-- The loop `for k, v := range m { h[k] = v }`. -/
def mergeHeaders (h m : GoMap) : GoMap :=
  m.foldl (fun acc p => GoMap.set acc p.1 p.2) h

/-- The loop `for k, v := range m { h["X-Object-Meta-"+k] = v }`. -/
def mergeMetadata (h m : GoMap) : GoMap :=
  m.foldl (fun acc p => GoMap.set acc ("X-Object-Meta-" ++ p.1) p.2) h

/-- The buffer `make([]byte, n)` after a read stored `bs` at its front. -/
def fillBuffer (n : Nat) (bs : Bytes) : Bytes :=
  bs.take n ++ List.replicate (n - bs.length) 0

/-- Dereference `&resp.HttpResponse`: a nil `resp` panics. -/
def addrHttpResponse (calls : List Call) (resp : Option Response) (err : Option GoError) :
    Run (Option HttpResponse × Option GoError) :=
  match resp with
  | none => ⟨calls, [], .panicked⟩
  | some r => ⟨calls, [], .returned (some r.HttpResponse, err)⟩

/-! ## The seven operations -/

def Objects.List (d : Collaborators) (c : Client) (opts : ListOpts) :
    Run (Option HttpResponse × Option GoError) :=
  let contentType := ""
  let (h, err) := c.GetHeaders
  match err with
  | some e => ⟨[], [], .returned (none, some e)⟩
  | none =>
    let query := d.BuildQuery opts.Params
    let contentType := if !opts.Full then "text/plain" else contentType
    let url := c.GetContainerURL opts.Container ++ query
    let call : Call := ⟨"GET", url, { MoreHeaders := h, Accept := contentType }⟩
    let (resp, err) := d.Request call
    addrHttpResponse [call] resp err

def Objects.Download (d : Collaborators) (c : Client) (opts : DownloadOpts) :
    Run (Option HttpResponse × Option GoError) :=
  let (h, err) := c.GetHeaders
  match err with
  | some e => ⟨[], [], .returned (none, some e)⟩
  | none =>
    let h := mergeHeaders h opts.Headers
    let query := d.BuildQuery opts.Params
    let url := c.GetObjectURL opts.Container opts.Name ++ query
    let call : Call := ⟨"GET", url, { MoreHeaders := h }⟩
    let (resp, err) := d.Request call
    addrHttpResponse [call] resp err

def Objects.Create (d : Collaborators) (c : Client) (opts : CreateOpts) :
    Run (Option GoError) :=
  let (h, err) := c.GetHeaders
  match err with
  | some e => ⟨[], [], .returned (some e)⟩
  | none =>
    let h := mergeHeaders h opts.Headers
    let h := mergeMetadata h opts.Metadata
    let query := d.BuildQuery opts.Params
    match opts.Content with
    | none =>
      let url := c.GetObjectURL opts.Container opts.Name ++ query
      let call : Call := ⟨"PUT", url, { ReqBody := [], MoreHeaders := h }⟩
      let (_, err) := d.Request call
      ⟨[call], [], .returned err⟩
    | some content =>
      let n := content.Len
      let (bs, err) := content.Read n
      match err with
      | some e => ⟨[], [n], .returned (some e)⟩
      | none =>
        let reqBody := fillBuffer n bs
        let url := c.GetObjectURL opts.Container opts.Name ++ query
        let call : Call := ⟨"PUT", url, { ReqBody := reqBody, MoreHeaders := h }⟩
        let (_, err) := d.Request call
        ⟨[call], [n], .returned err⟩

def Objects.Copy (d : Collaborators) (c : Client) (opts : CopyOpts) :
    Run (Option GoError) :=
  let (h, err) := c.GetHeaders
  match err with
  | some e => ⟨[], [], .returned (some e)⟩
  | none =>
    let h := mergeMetadata h opts.Metadata
    let h := GoMap.set h "Destination" ("/" ++ opts.NewContainer ++ "/" ++ opts.NewName)
    let url := c.GetObjectURL opts.Container opts.Name
    let call : Call := ⟨"COPY", url, { MoreHeaders := h }⟩
    let (_, err) := d.Request call
    ⟨[call], [], .returned err⟩

def Objects.Delete (d : Collaborators) (c : Client) (opts : DeleteOpts) :
    Run (Option GoError) :=
  let (h, err) := c.GetHeaders
  match err with
  | some e => ⟨[], [], .returned (some e)⟩
  | none =>
    let query := d.BuildQuery opts.Params
    let url := c.GetObjectURL opts.Container opts.Name ++ query
    let call : Call := ⟨"DELETE", url, { MoreHeaders := h }⟩
    let (_, err) := d.Request call
    ⟨[call], [], .returned err⟩

def Objects.Get (d : Collaborators) (c : Client) (opts : GetOpts) :
    Run (Option HttpResponse × Option GoError) :=
  let (h, err) := c.GetHeaders
  match err with
  | some e => ⟨[], [], .returned (none, some e)⟩
  | none =>
    let h := mergeHeaders h opts.Headers
    let url := c.GetObjectURL opts.Container opts.Name
    let call : Call := ⟨"HEAD", url, { MoreHeaders := h }⟩
    let (resp, err) := d.Request call
    addrHttpResponse [call] resp err

def Objects.Update (d : Collaborators) (c : Client) (opts : UpdateOpts) :
    Run (Option GoError) :=
  let (h, err) := c.GetHeaders
  match err with
  | some e => ⟨[], [], .returned (some e)⟩
  | none =>
    let h := mergeHeaders h opts.Headers
    let h := mergeMetadata h opts.Metadata
    let url := c.GetObjectURL opts.Container opts.Name
    let call : Call := ⟨"POST", url, { MoreHeaders := h }⟩
    let (_, err) := d.Request call
    ⟨[call], [], .returned err⟩

/-! ## Concrete collaborators used by the examples -/

/-- A client whose header call succeeds with `h`. -/
def okClient (h : GoMap) : Client :=
  ⟨(h, none), fun ct => "http://s/" ++ ct, fun ct nm => "http://s/" ++ ct ++ "/" ++ nm⟩

/-- A client whose header call fails with `e`. -/
def badClient (e : GoError) : Client :=
  ⟨([], some e), fun ct => "http://s/" ++ ct, fun ct nm => "http://s/" ++ ct ++ "/" ++ nm⟩

/-- Collaborators whose executor answers every call with `r`; the query builder
writes `?k=v` for the first entry and nothing for the empty map. -/
def fixedWorld (r : Option Response × Option GoError) : Collaborators :=
  ⟨fun m => match m with
    | [] => ""
    | (k, v) :: _ => "?" ++ k ++ "=" ++ v,
   fun _ => r⟩

/-- A response with status 200 and no body. -/
def okResponse : Response := ⟨⟨200, []⟩⟩

/-! ## Lemmas on maps -/

theorem GoMap.get_set (m : GoMap) (k v key : String) :
    (m.set k v).get key = if k = key then some v else m.get key := by
  induction m with
  | nil => simp [GoMap.set, GoMap.get]
  | cons a m ih =>
    obtain ⟨a1, a2⟩ := a
    by_cases h1 : a1 = k
    · subst h1
      by_cases h2 : a1 = key
      · simp [GoMap.set, GoMap.get, h2]
      · simp [GoMap.set, GoMap.get, h2]
    · by_cases h3 : a1 = key
      · subst h3
        have h2 : ¬ k = a1 := fun e => h1 e.symm
        simp [GoMap.set, GoMap.get, h1, h2]
      · simp [GoMap.set, GoMap.get, h1, h3, ih]

theorem GoMap.get_set_self (m : GoMap) (k v : String) : (m.set k v).get k = some v := by
  simp [GoMap.get_set]

theorem GoMap.get_set_ne (m : GoMap) (k v key : String) (h : k ≠ key) :
    (m.set k v).get key = m.get key := by
  simp [GoMap.get_set, h]

theorem GoMap.get_eq_none_iff (m : GoMap) (key : String) :
    m.get key = none ↔ key ∉ m.keys := by
  induction m with
  | nil => simp [GoMap.get, GoMap.keys]
  | cons a m ih =>
    obtain ⟨a1, a2⟩ := a
    by_cases h : a1 = key
    · simp [GoMap.get, GoMap.keys, h]
    · have h2 : ¬ key = a1 := fun e => h e.symm
      simpa [GoMap.get, GoMap.keys, h, h2] using ih

theorem GoMap.get_of_mem (m : GoMap) (hm : m.WF) (k v : String) (h : (k, v) ∈ m) :
    m.get k = some v := by
  induction m with
  | nil => simp at h
  | cons a m ih =>
    obtain ⟨a1, a2⟩ := a
    have hnd : a1 ∉ GoMap.keys m ∧ GoMap.WF m := by
      simpa [GoMap.WF, GoMap.keys] using hm
    rcases List.mem_cons.mp h with h1 | h1
    · cases h1; simp [GoMap.get]
    · have hk : k ∈ GoMap.keys m := List.mem_map.mpr ⟨(k, v), h1, rfl⟩
      have hne : a1 ≠ k := fun e => hnd.1 (e ▸ hk)
      simp [GoMap.get, hne, ih hnd.2 h1]

theorem GoMap.mem_of_get (m : GoMap) (k v : String) (h : m.get k = some v) : (k, v) ∈ m := by
  induction m with
  | nil => simp [GoMap.get] at h
  | cons a m ih =>
    obtain ⟨a1, a2⟩ := a
    by_cases h1 : a1 = k
    · simp [GoMap.get, h1] at h
      simp [h1, h]
    · simp [GoMap.get, h1] at h
      exact List.mem_cons_of_mem _ (ih h)

/-- The loop that assigns `f k` for every entry: a key no entry maps to keeps its value. -/
theorem foldl_set_get_of_not_mem (f : String → String) (m h : GoMap) (key : String)
    (hk : ∀ p ∈ m, f p.1 ≠ key) :
    (m.foldl (fun acc p => GoMap.set acc (f p.1) p.2) h).get key = h.get key := by
  induction m generalizing h with
  | nil => rfl
  | cons a m ih =>
    rw [List.foldl_cons, ih _ (fun p hp => hk p (List.mem_cons_of_mem _ hp))]
    exact GoMap.get_set_ne _ _ _ _ (hk a (List.mem_cons_self _ _))

/-- The loop that assigns `f k` for every entry of a well-formed map, `f` injective:
an entry's key holds the entry's value afterwards. -/
theorem foldl_set_get_of_mem (f : String → String) (hf : Function.Injective f)
    (m h : GoMap) (hm : m.WF) (k v : String) (hkv : (k, v) ∈ m) :
    (m.foldl (fun acc p => GoMap.set acc (f p.1) p.2) h).get (f k) = some v := by
  induction m generalizing h with
  | nil => simp at hkv
  | cons a m ih =>
    obtain ⟨a1, a2⟩ := a
    have hnd : a1 ∉ GoMap.keys m ∧ GoMap.WF m := by
      simpa [GoMap.WF, GoMap.keys] using hm
    rw [List.foldl_cons]
    rcases List.mem_cons.mp hkv with h1 | h1
    · cases h1
      rw [foldl_set_get_of_not_mem]
      · exact GoMap.get_set_self _ _ _
      · intro p hp e
        have : p.1 = k := hf e
        exact hnd.1 (this ▸ List.mem_map.mpr ⟨p, hp, rfl⟩)
    · exact ih _ hnd.2 h1

theorem metaKey_injective : Function.Injective (fun k : String => "X-Object-Meta-" ++ k) := by
  intro a b h
  have h2 := congrArg String.data h
  simp only [String.data_append] at h2
  exact String.ext (List.append_cancel_left h2)

theorem metaKey_ne_destination (k : String) : "X-Object-Meta-" ++ k ≠ "Destination" := by
  intro h
  have h2 := congrArg String.data h
  simp only [String.data_append] at h2
  have h3 := congrArg List.head? h2
  simp at h3

theorem GoMap.keys_set (m : GoMap) (k v : String) :
    (m.set k v).keys = if k ∈ m.keys then m.keys else m.keys ++ [k] := by
  induction m with
  | nil => simp [GoMap.set, GoMap.keys]
  | cons a m ih =>
    obtain ⟨a1, a2⟩ := a
    by_cases h1 : a1 = k
    · subst h1
      simp [GoMap.set, GoMap.keys]
    · have h2 : ¬ k = a1 := fun e => h1 e.symm
      have ih2 : List.map Prod.fst (GoMap.set m k v)
          = if k ∈ List.map Prod.fst m then List.map Prod.fst m
            else List.map Prod.fst m ++ [k] := ih
      by_cases h3 : k ∈ List.map Prod.fst m
      · rw [if_pos h3] at ih2
        have h4 : k ∈ List.map Prod.fst ((a1, a2) :: m) := by
          simp only [List.map_cons, List.mem_cons]; exact Or.inr h3
        simp only [GoMap.set, GoMap.keys, h1, if_false, List.map_cons, ih2]
        rw [if_pos (by simpa using Or.inr h3)]
      · rw [if_neg h3] at ih2
        simp only [GoMap.set, GoMap.keys, h1, if_false, List.map_cons, ih2]
        rw [if_neg (by simpa [h2] using h3)]
        rfl

theorem GoMap.WF_set (m : GoMap) (k v : String) (hm : m.WF) : (m.set k v).WF := by
  unfold GoMap.WF at *
  rw [GoMap.keys_set]
  by_cases h : k ∈ m.keys
  · simpa [h] using hm
  · rw [if_neg h]
    exact List.Nodup.append hm (List.nodup_singleton k) (by simpa using h)

theorem foldl_set_WF (f : String → String) (m h : GoMap) (hh : h.WF) :
    (m.foldl (fun acc p => GoMap.set acc (f p.1) p.2) h).WF := by
  induction m generalizing h with
  | nil => exact hh
  | cons a m ih => exact ih _ (GoMap.WF_set _ _ _ hh)

theorem mergeHeaders_WF (h m : GoMap) (hh : h.WF) : (mergeHeaders h m).WF :=
  foldl_set_WF id m h hh

theorem mergeMetadata_WF (h m : GoMap) (hh : h.WF) : (mergeMetadata h m).WF :=
  foldl_set_WF (fun k => "X-Object-Meta-" ++ k) m h hh

theorem mergeHeaders_get_of_mem (h m : GoMap) (hm : m.WF) (k v : String)
    (hkv : (k, v) ∈ m) : (mergeHeaders h m).get k = some v :=
  foldl_set_get_of_mem id Function.injective_id m h hm k v hkv

theorem mergeHeaders_get_of_not_mem (h m : GoMap) (key : String) (hk : key ∉ m.keys) :
    (mergeHeaders h m).get key = h.get key :=
  foldl_set_get_of_not_mem id m h key
    (fun p hp e => hk (List.mem_map.mpr ⟨p, hp, e⟩))

theorem mergeMetadata_get_of_mem (h m : GoMap) (hm : m.WF) (k v : String)
    (hkv : (k, v) ∈ m) : (mergeMetadata h m).get ("X-Object-Meta-" ++ k) = some v :=
  foldl_set_get_of_mem (fun k => "X-Object-Meta-" ++ k) metaKey_injective m h hm k v hkv

theorem mergeMetadata_get_of_not_mem (h m : GoMap) (key : String)
    (hk : ∀ k ∈ m.keys, "X-Object-Meta-" ++ k ≠ key) :
    (mergeMetadata h m).get key = h.get key :=
  foldl_set_get_of_not_mem (fun k => "X-Object-Meta-" ++ k) m h key
    (fun p hp => hk p.1 (List.mem_map.mpr ⟨p, hp, rfl⟩))

/-- The header map of Create and Update, key by key: metadata first, then the per-call
headers, then the defaults; and it has no key from elsewhere. -/
theorem merged_get (h0 hd md : GoMap) (hhd : hd.WF) (hmd : md.WF) (key : String) :
    (∀ k v, (k, v) ∈ md → "X-Object-Meta-" ++ k = key →
      (mergeMetadata (mergeHeaders h0 hd) md).get key = some v) ∧
    ((∀ k ∈ md.keys, "X-Object-Meta-" ++ k ≠ key) →
      (∀ v, (key, v) ∈ hd → (mergeMetadata (mergeHeaders h0 hd) md).get key = some v) ∧
      (key ∉ hd.keys → (mergeMetadata (mergeHeaders h0 hd) md).get key = h0.get key)) ∧
    (key ∈ (mergeMetadata (mergeHeaders h0 hd) md).keys →
      (∃ k ∈ md.keys, "X-Object-Meta-" ++ k = key) ∨ key ∈ hd.keys ∨ key ∈ h0.keys) := by
  have hA : (∀ k ∈ md.keys, "X-Object-Meta-" ++ k ≠ key) →
      (∀ v, (key, v) ∈ hd → (mergeMetadata (mergeHeaders h0 hd) md).get key = some v) ∧
      (key ∉ hd.keys → (mergeMetadata (mergeHeaders h0 hd) md).get key = h0.get key) := by
    intro hno
    rw [mergeMetadata_get_of_not_mem _ _ _ hno]
    exact ⟨fun v hv => mergeHeaders_get_of_mem h0 hd hhd key v hv,
      fun hk => mergeHeaders_get_of_not_mem h0 hd key hk⟩
  refine ⟨?_, hA, ?_⟩
  · intro k v hkv hk
    subst hk
    exact mergeMetadata_get_of_mem _ md hmd k v hkv
  · intro hin
    by_cases h1 : ∃ k ∈ md.keys, "X-Object-Meta-" ++ k = key
    · exact Or.inl h1
    · by_cases h2 : key ∈ hd.keys
      · exact Or.inr (Or.inl h2)
      · refine Or.inr (Or.inr ?_)
        have hno : ∀ k ∈ md.keys, "X-Object-Meta-" ++ k ≠ key :=
          fun k hk e => h1 ⟨k, hk, e⟩
        have hget := (hA hno).2 h2
        by_contra h3
        rw [(GoMap.get_eq_none_iff h0 key).mpr h3] at hget
        exact (GoMap.get_eq_none_iff _ key).mp hget hin

/-! ## The executor calls of each operation -/

theorem addrHttpResponse_requests (calls : List Call) (resp : Option Response)
    (err : Option GoError) : (addrHttpResponse calls resp err).requests = calls := by
  cases resp <;> rfl

theorem list_requests (d : Collaborators) (c : Client) (opts : ListOpts)
    (hh : c.GetHeaders.2 = none) :
    (Objects.List d c opts).requests =
      [⟨"GET", c.GetContainerURL opts.Container ++ d.BuildQuery opts.Params,
        { MoreHeaders := c.GetHeaders.1,
          Accept := if !opts.Full then "text/plain" else "" }⟩] := by
  obtain ⟨gh, cu, ou⟩ := c
  obtain ⟨h, err⟩ := gh
  simp only at hh
  subst hh
  simp only [Objects.List]
  exact addrHttpResponse_requests _ _ _

theorem download_requests (d : Collaborators) (c : Client) (opts : DownloadOpts)
    (hh : c.GetHeaders.2 = none) :
    (Objects.Download d c opts).requests =
      [⟨"GET", c.GetObjectURL opts.Container opts.Name ++ d.BuildQuery opts.Params,
        { MoreHeaders := mergeHeaders c.GetHeaders.1 opts.Headers }⟩] := by
  obtain ⟨gh, cu, ou⟩ := c
  obtain ⟨h, err⟩ := gh
  simp only at hh
  subst hh
  simp only [Objects.Download]
  exact addrHttpResponse_requests _ _ _

theorem get_requests (d : Collaborators) (c : Client) (opts : GetOpts)
    (hh : c.GetHeaders.2 = none) :
    (Objects.Get d c opts).requests =
      [⟨"HEAD", c.GetObjectURL opts.Container opts.Name,
        { MoreHeaders := mergeHeaders c.GetHeaders.1 opts.Headers }⟩] := by
  obtain ⟨gh, cu, ou⟩ := c
  obtain ⟨h, err⟩ := gh
  simp only at hh
  subst hh
  simp only [Objects.Get]
  exact addrHttpResponse_requests _ _ _

theorem copy_requests (d : Collaborators) (c : Client) (opts : CopyOpts)
    (hh : c.GetHeaders.2 = none) :
    (Objects.Copy d c opts).requests =
      [⟨"COPY", c.GetObjectURL opts.Container opts.Name,
        { MoreHeaders := GoMap.set (mergeMetadata c.GetHeaders.1 opts.Metadata) "Destination"
            ("/" ++ opts.NewContainer ++ "/" ++ opts.NewName) }⟩] := by
  obtain ⟨gh, cu, ou⟩ := c
  obtain ⟨h, err⟩ := gh
  simp only at hh
  subst hh
  rfl

theorem delete_requests (d : Collaborators) (c : Client) (opts : DeleteOpts)
    (hh : c.GetHeaders.2 = none) :
    (Objects.Delete d c opts).requests =
      [⟨"DELETE", c.GetObjectURL opts.Container opts.Name ++ d.BuildQuery opts.Params,
        { MoreHeaders := c.GetHeaders.1 }⟩] := by
  obtain ⟨gh, cu, ou⟩ := c
  obtain ⟨h, err⟩ := gh
  simp only at hh
  subst hh
  rfl

theorem update_requests (d : Collaborators) (c : Client) (opts : UpdateOpts)
    (hh : c.GetHeaders.2 = none) :
    (Objects.Update d c opts).requests =
      [⟨"POST", c.GetObjectURL opts.Container opts.Name,
        { MoreHeaders := mergeMetadata (mergeHeaders c.GetHeaders.1 opts.Headers)
            opts.Metadata }⟩] := by
  obtain ⟨gh, cu, ou⟩ := c
  obtain ⟨h, err⟩ := gh
  simp only at hh
  subst hh
  rfl

/-- Create when the headers are there and no content is given. -/
theorem create_run_nil (d : Collaborators) (c : Client) (opts : CreateOpts)
    (hh : c.GetHeaders.2 = none) (hc : opts.Content = none) :
    Objects.Create d c opts =
      ⟨[⟨"PUT", c.GetObjectURL opts.Container opts.Name ++ d.BuildQuery opts.Params,
          { ReqBody := [],
            MoreHeaders := mergeMetadata (mergeHeaders c.GetHeaders.1 opts.Headers)
              opts.Metadata }⟩],
        [],
        .returned (d.Request
          ⟨"PUT", c.GetObjectURL opts.Container opts.Name ++ d.BuildQuery opts.Params,
            { ReqBody := [],
              MoreHeaders := mergeMetadata (mergeHeaders c.GetHeaders.1 opts.Headers)
                opts.Metadata }⟩).2⟩ := by
  obtain ⟨gh, cu, ou⟩ := c
  obtain ⟨h, err⟩ := gh
  simp only at hh
  subst hh
  obtain ⟨ct, nm, content, md, hd, ps⟩ := opts
  simp only at hc
  subst hc
  rfl

/-- Create when the headers are there and the read on the content reports no error. -/
theorem create_run_read (d : Collaborators) (c : Client) (opts : CreateOpts)
    (cs : ContentSource) (hh : c.GetHeaders.2 = none) (hc : opts.Content = some cs)
    (hr : (cs.Read cs.Len).2 = none) :
    Objects.Create d c opts =
      ⟨[⟨"PUT", c.GetObjectURL opts.Container opts.Name ++ d.BuildQuery opts.Params,
          { ReqBody := fillBuffer cs.Len (cs.Read cs.Len).1,
            MoreHeaders := mergeMetadata (mergeHeaders c.GetHeaders.1 opts.Headers)
              opts.Metadata }⟩],
        [cs.Len],
        .returned (d.Request
          ⟨"PUT", c.GetObjectURL opts.Container opts.Name ++ d.BuildQuery opts.Params,
            { ReqBody := fillBuffer cs.Len (cs.Read cs.Len).1,
              MoreHeaders := mergeMetadata (mergeHeaders c.GetHeaders.1 opts.Headers)
                opts.Metadata }⟩).2⟩ := by
  obtain ⟨gh, cu, ou⟩ := c
  obtain ⟨h, err⟩ := gh
  simp only at hh
  subst hh
  obtain ⟨ct, nm, content, md, hd, ps⟩ := opts
  simp only at hc
  subst hc
  obtain ⟨n, rd⟩ := cs
  cases hrd : rd n with
  | mk bs e =>
    simp only [hrd] at hr
    subst hr
    simp only [Objects.Create, hrd]

/-- Create when the headers are there and the read on the content reports an error. -/
theorem create_run_read_error (d : Collaborators) (c : Client) (opts : CreateOpts)
    (cs : ContentSource) (e : GoError) (hh : c.GetHeaders.2 = none)
    (hc : opts.Content = some cs) (hr : (cs.Read cs.Len).2 = some e) :
    Objects.Create d c opts = ⟨[], [cs.Len], .returned (some e)⟩ := by
  obtain ⟨gh, cu, ou⟩ := c
  obtain ⟨h, err⟩ := gh
  simp only at hh
  subst hh
  obtain ⟨ct, nm, content, md, hd, ps⟩ := opts
  simp only at hc
  subst hc
  obtain ⟨n, rd⟩ := cs
  cases hrd : rd n with
  | mk bs e2 =>
    simp only [hrd] at hr
    subst hr
    simp only [Objects.Create, hrd]

/-- List when the headers are there. -/
theorem list_run (d : Collaborators) (c : Client) (opts : ListOpts)
    (hh : c.GetHeaders.2 = none) :
    Objects.List d c opts =
      addrHttpResponse
        [⟨"GET", c.GetContainerURL opts.Container ++ d.BuildQuery opts.Params,
          { MoreHeaders := c.GetHeaders.1,
            Accept := if !opts.Full then "text/plain" else "" }⟩]
        (d.Request ⟨"GET", c.GetContainerURL opts.Container ++ d.BuildQuery opts.Params,
          { MoreHeaders := c.GetHeaders.1,
            Accept := if !opts.Full then "text/plain" else "" }⟩).1
        (d.Request ⟨"GET", c.GetContainerURL opts.Container ++ d.BuildQuery opts.Params,
          { MoreHeaders := c.GetHeaders.1,
            Accept := if !opts.Full then "text/plain" else "" }⟩).2 := by
  obtain ⟨gh, cu, ou⟩ := c
  obtain ⟨h, err⟩ := gh
  simp only at hh
  subst hh
  rfl

/-- Download when the headers are there. -/
theorem download_run (d : Collaborators) (c : Client) (opts : DownloadOpts)
    (hh : c.GetHeaders.2 = none) :
    Objects.Download d c opts =
      addrHttpResponse
        [⟨"GET", c.GetObjectURL opts.Container opts.Name ++ d.BuildQuery opts.Params,
          { MoreHeaders := mergeHeaders c.GetHeaders.1 opts.Headers }⟩]
        (d.Request ⟨"GET", c.GetObjectURL opts.Container opts.Name ++ d.BuildQuery opts.Params,
          { MoreHeaders := mergeHeaders c.GetHeaders.1 opts.Headers }⟩).1
        (d.Request ⟨"GET", c.GetObjectURL opts.Container opts.Name ++ d.BuildQuery opts.Params,
          { MoreHeaders := mergeHeaders c.GetHeaders.1 opts.Headers }⟩).2 := by
  obtain ⟨gh, cu, ou⟩ := c
  obtain ⟨h, err⟩ := gh
  simp only at hh
  subst hh
  rfl

/-- Get when the headers are there. -/
theorem get_run (d : Collaborators) (c : Client) (opts : GetOpts)
    (hh : c.GetHeaders.2 = none) :
    Objects.Get d c opts =
      addrHttpResponse
        [⟨"HEAD", c.GetObjectURL opts.Container opts.Name,
          { MoreHeaders := mergeHeaders c.GetHeaders.1 opts.Headers }⟩]
        (d.Request ⟨"HEAD", c.GetObjectURL opts.Container opts.Name,
          { MoreHeaders := mergeHeaders c.GetHeaders.1 opts.Headers }⟩).1
        (d.Request ⟨"HEAD", c.GetObjectURL opts.Container opts.Name,
          { MoreHeaders := mergeHeaders c.GetHeaders.1 opts.Headers }⟩).2 := by
  obtain ⟨gh, cu, ou⟩ := c
  obtain ⟨h, err⟩ := gh
  simp only at hh
  subst hh
  rfl

theorem addrHttpResponse_nil (calls : List Call) (err : Option GoError) :
    (addrHttpResponse calls none err).outcome = .panicked := rfl

theorem addrHttpResponse_some (calls : List Call) (r : Response) (err : Option GoError) :
    (addrHttpResponse calls (some r) err).outcome = .returned (some r.HttpResponse, err) := rfl

/-- With the headers there and an executor that answers every call with a nil response,
List, Download and Get end in a panic, whatever error comes with the nil response. -/
theorem nil_response_outcome (d : Collaborators) (c : Client)
    (hh : c.GetHeaders.2 = none) (hnil : ∀ call, (d.Request call).1 = none) :
    (∀ opts, (Objects.List d c opts).outcome = .panicked) ∧
    (∀ opts, (Objects.Download d c opts).outcome = .panicked) ∧
    (∀ opts, (Objects.Get d c opts).outcome = .panicked) := by
  refine ⟨?_, ?_, ?_⟩
  · intro opts
    rw [list_run d c opts hh, hnil]
    rfl
  · intro opts
    rw [download_run d c opts hh, hnil]
    rfl
  · intro opts
    rw [get_run d c opts hh, hnil]
    rfl

/-- With the headers there, Copy, Delete and Update return the executor's error as it is;
List, Download and Get do so when the response is not nil. -/
theorem executor_error_returned (d : Collaborators) (c : Client)
    (hh : c.GetHeaders.2 = none) :
    (∀ opts : CopyOpts, ∃ call, (Objects.Copy d c opts).requests = [call] ∧
      (Objects.Copy d c opts).outcome = .returned (d.Request call).2) ∧
    (∀ opts : DeleteOpts, ∃ call, (Objects.Delete d c opts).requests = [call] ∧
      (Objects.Delete d c opts).outcome = .returned (d.Request call).2) ∧
    (∀ opts : UpdateOpts, ∃ call, (Objects.Update d c opts).requests = [call] ∧
      (Objects.Update d c opts).outcome = .returned (d.Request call).2) ∧
    (∀ opts : ListOpts, ∃ call, (Objects.List d c opts).requests = [call] ∧
      ∀ r, (d.Request call).1 = some r →
        (Objects.List d c opts).outcome = .returned (some r.HttpResponse, (d.Request call).2)) ∧
    (∀ opts : DownloadOpts, ∃ call, (Objects.Download d c opts).requests = [call] ∧
      ∀ r, (d.Request call).1 = some r →
        (Objects.Download d c opts).outcome
          = .returned (some r.HttpResponse, (d.Request call).2)) ∧
    (∀ opts : GetOpts, ∃ call, (Objects.Get d c opts).requests = [call] ∧
      ∀ r, (d.Request call).1 = some r →
        (Objects.Get d c opts).outcome = .returned (some r.HttpResponse, (d.Request call).2)) := by
  refine ⟨?_, ?_, ?_, ?_, ?_, ?_⟩
  · intro opts
    refine ⟨_, copy_requests d c opts hh, ?_⟩
    obtain ⟨gh, cu, ou⟩ := c
    obtain ⟨h, err⟩ := gh
    simp only at hh
    subst hh
    rfl
  · intro opts
    refine ⟨_, delete_requests d c opts hh, ?_⟩
    obtain ⟨gh, cu, ou⟩ := c
    obtain ⟨h, err⟩ := gh
    simp only at hh
    subst hh
    rfl
  · intro opts
    refine ⟨_, update_requests d c opts hh, ?_⟩
    obtain ⟨gh, cu, ou⟩ := c
    obtain ⟨h, err⟩ := gh
    simp only at hh
    subst hh
    rfl
  · intro opts
    refine ⟨_, list_requests d c opts hh, ?_⟩
    intro r hr
    rw [list_run d c opts hh, hr]
    rfl
  · intro opts
    refine ⟨_, download_requests d c opts hh, ?_⟩
    intro r hr
    rw [download_run d c opts hh, hr]
    rfl
  · intro opts
    refine ⟨_, get_requests d c opts hh, ?_⟩
    intro r hr
    rw [get_run d c opts hh, hr]
    rfl

/-! ## Claims -/

/-- C1: when the client yields its headers, Copy issues one request whose headers hold
under "Destination" exactly "/" ++ NewContainer ++ "/" ++ NewName, for every default
header set (also one that already has a "Destination" entry) and every Metadata mapping. -/
theorem copy_destination_header (d : Collaborators) (c : Client) (opts : CopyOpts)
    (hh : c.GetHeaders.2 = none) :
    ∃ call, (Objects.Copy d c opts).requests = [call] ∧
      call.opts.MoreHeaders.get "Destination"
        = some ("/" ++ opts.NewContainer ++ "/" ++ opts.NewName) := by
  obtain ⟨gh, cu, ou⟩ := c
  obtain ⟨h, err⟩ := gh
  simp only at hh
  subst hh
  exact ⟨_, rfl, GoMap.get_set_self _ _ _⟩

theorem copy_destination_header_witness :
    (okClient [("Destination", "/old/place")]).GetHeaders.2 = none ∧
    ∃ call, (Objects.Copy (fixedWorld (some okResponse, none))
        (okClient [("Destination", "/old/place")])
        { Container := "c1", Name := "o1", NewContainer := "c2", NewName := "o2",
          Metadata := [("Destination", "m")] }).requests = [call] ∧
      call.opts.MoreHeaders.get "Destination" = some ("/" ++ "c2" ++ "/" ++ "o2") :=
  ⟨rfl, copy_destination_header _ _ _ rfl⟩

/-- C4, as stated, fails: with an "Accept" entry among the client's default headers, List
with Full false passes the option Accept "text/plain" and, with it, the default headers
unchanged; the headers of the request still hold "application/json" under "Accept". -/
theorem list_keeps_default_accept :
    (Objects.List (fixedWorld (some okResponse, none))
        (okClient [("Accept", "application/json")])
        { Container := "c1", Full := false }).requests
      = [⟨"GET", "http://s/c1",
          { MoreHeaders := [("Accept", "application/json")], Accept := "text/plain" }⟩] ∧
    GoMap.get [("Accept", "application/json")] "Accept" = some "application/json" ∧
    GoMap.get [("Accept", "application/json")] "Accept" ≠ some "text/plain" := by
  decide

/-- C4, amended: when the client yields its headers, List issues one request whose Accept
option is "text/plain" if Full is false and the empty string if Full is true, whatever
the Params are; the default headers are passed on unchanged as the extra headers, so an
"Accept" entry among them is neither removed nor replaced. -/
theorem list_accept (d : Collaborators) (c : Client) (opts : ListOpts)
    (hh : c.GetHeaders.2 = none) :
    ∃ call, (Objects.List d c opts).requests = [call] ∧
      call.opts.MoreHeaders = c.GetHeaders.1 ∧
      call.opts.MoreHeaders.get "Accept" = c.GetHeaders.1.get "Accept" ∧
      (opts.Full = false → call.opts.Accept = "text/plain") ∧
      (opts.Full = true → call.opts.Accept = "") := by
  refine ⟨_, list_requests d c opts hh, rfl, rfl, ?_, ?_⟩
  · intro hf; simp [hf]
  · intro hf; simp [hf]

theorem list_accept_witness :
    (okClient [("X-Auth-Token", "t")]).GetHeaders.2 = none ∧
    ∃ call, (Objects.List (fixedWorld (some okResponse, none))
        (okClient [("X-Auth-Token", "t")])
        { Container := "c1", Params := [("limit", "2")], Full := false }).requests = [call] ∧
      call.opts.MoreHeaders = [("X-Auth-Token", "t")] ∧
      call.opts.MoreHeaders.get "Accept" = GoMap.get [("X-Auth-Token", "t")] "Accept" ∧
      ((false : Bool) = false → call.opts.Accept = "text/plain") ∧
      ((false : Bool) = true → call.opts.Accept = "") :=
  ⟨rfl, list_accept _ _ { Container := "c1", Params := [("limit", "2")], Full := false } rfl⟩

/-- C6: if the client's GetHeaders returns an error e, each of the seven operations
returns exactly e (with a nil result for List, Download and Get), issues no executor call,
and (Create) makes no read on the content source. -/
theorem header_error_propagates (d : Collaborators) (c : Client) (e : GoError)
    (hh : c.GetHeaders.2 = some e) :
    (∀ opts, Objects.List d c opts = ⟨[], [], .returned (none, some e)⟩) ∧
    (∀ opts, Objects.Download d c opts = ⟨[], [], .returned (none, some e)⟩) ∧
    (∀ opts, Objects.Create d c opts = ⟨[], [], .returned (some e)⟩) ∧
    (∀ opts, Objects.Copy d c opts = ⟨[], [], .returned (some e)⟩) ∧
    (∀ opts, Objects.Delete d c opts = ⟨[], [], .returned (some e)⟩) ∧
    (∀ opts, Objects.Get d c opts = ⟨[], [], .returned (none, some e)⟩) ∧
    (∀ opts, Objects.Update d c opts = ⟨[], [], .returned (some e)⟩) := by
  obtain ⟨gh, cu, ou⟩ := c
  obtain ⟨h, err⟩ := gh
  simp only at hh
  subst hh
  exact ⟨fun _ => rfl, fun _ => rfl, fun _ => rfl, fun _ => rfl, fun _ => rfl,
    fun _ => rfl, fun _ => rfl⟩

theorem header_error_propagates_witness :
    (badClient ⟨"no token"⟩).GetHeaders.2 = some ⟨"no token"⟩ ∧
    Objects.Create (fixedWorld (some okResponse, none)) (badClient ⟨"no token"⟩)
        { Container := "c1", Name := "o1",
          Content := some ⟨5, fun _ => ([104, 101, 108, 108, 111], none)⟩ }
      = ⟨[], [], .returned (some ⟨"no token"⟩)⟩ :=
  ⟨rfl, (header_error_propagates _ _ _ rfl).2.2.1 _⟩

/-- C8: when the client yields its headers (and, for Create, the read on the content
reports no error), each operation issues exactly one executor call, with its fixed verb
and URL: the container URL plus the query for List, the object URL plus the query for
Download, Create and Delete, the bare object URL for Copy, Get and Update; where the
query is empty the URL is the scoped URL itself. -/
theorem one_request_verb_url (d : Collaborators) (c : Client)
    (hh : c.GetHeaders.2 = none) :
    (∀ opts : ListOpts, ∃ call, (Objects.List d c opts).requests = [call] ∧
      call.method = "GET" ∧
      call.url = c.GetContainerURL opts.Container ++ d.BuildQuery opts.Params ∧
      (d.BuildQuery opts.Params = "" → call.url = c.GetContainerURL opts.Container)) ∧
    (∀ opts : DownloadOpts, ∃ call, (Objects.Download d c opts).requests = [call] ∧
      call.method = "GET" ∧
      call.url = c.GetObjectURL opts.Container opts.Name ++ d.BuildQuery opts.Params ∧
      (d.BuildQuery opts.Params = "" → call.url = c.GetObjectURL opts.Container opts.Name)) ∧
    (∀ opts : CreateOpts,
      (∀ cs, opts.Content = some cs → (cs.Read cs.Len).2 = none) →
      ∃ call, (Objects.Create d c opts).requests = [call] ∧
      call.method = "PUT" ∧
      call.url = c.GetObjectURL opts.Container opts.Name ++ d.BuildQuery opts.Params ∧
      (d.BuildQuery opts.Params = "" → call.url = c.GetObjectURL opts.Container opts.Name)) ∧
    (∀ opts : DeleteOpts, ∃ call, (Objects.Delete d c opts).requests = [call] ∧
      call.method = "DELETE" ∧
      call.url = c.GetObjectURL opts.Container opts.Name ++ d.BuildQuery opts.Params ∧
      (d.BuildQuery opts.Params = "" → call.url = c.GetObjectURL opts.Container opts.Name)) ∧
    (∀ opts : CopyOpts, ∃ call, (Objects.Copy d c opts).requests = [call] ∧
      call.method = "COPY" ∧ call.url = c.GetObjectURL opts.Container opts.Name) ∧
    (∀ opts : GetOpts, ∃ call, (Objects.Get d c opts).requests = [call] ∧
      call.method = "HEAD" ∧ call.url = c.GetObjectURL opts.Container opts.Name) ∧
    (∀ opts : UpdateOpts, ∃ call, (Objects.Update d c opts).requests = [call] ∧
      call.method = "POST" ∧ call.url = c.GetObjectURL opts.Container opts.Name) := by
  refine ⟨?_, ?_, ?_, ?_, ?_, ?_, ?_⟩
  · intro opts
    refine ⟨_, list_requests d c opts hh, rfl, rfl, ?_⟩
    intro hq
    simp [hq]
  · intro opts
    refine ⟨_, download_requests d c opts hh, rfl, rfl, ?_⟩
    intro hq
    simp [hq]
  · intro opts hread
    cases hc : opts.Content with
    | none =>
      refine ⟨_, congrArg Run.requests (create_run_nil d c opts hh hc), rfl, rfl, ?_⟩
      intro hq
      simp [hq]
    | some cs =>
      refine ⟨_, congrArg Run.requests (create_run_read d c opts cs hh hc (hread cs hc)),
        rfl, rfl, ?_⟩
      intro hq
      simp [hq]
  · intro opts
    refine ⟨_, delete_requests d c opts hh, rfl, rfl, ?_⟩
    intro hq
    simp [hq]
  · intro opts
    exact ⟨_, copy_requests d c opts hh, rfl, rfl⟩
  · intro opts
    exact ⟨_, get_requests d c opts hh, rfl, rfl⟩
  · intro opts
    exact ⟨_, update_requests d c opts hh, rfl, rfl⟩

theorem one_request_verb_url_witness :
    (okClient [("X-Auth-Token", "t")]).GetHeaders.2 = none ∧
    ∃ call, (Objects.List (fixedWorld (some okResponse, none))
        (okClient [("X-Auth-Token", "t")]) { Container := "c1" }).requests = [call] ∧
      call.method = "GET" ∧
      call.url = "http://s/" ++ "c1" ++ "" ∧
      ("" = "" → call.url = "http://s/" ++ "c1") :=
  ⟨rfl, (one_request_verb_url (fixedWorld (some okResponse, none))
    (okClient [("X-Auth-Token", "t")]) rfl).1 { Container := "c1" }⟩

/-- C2: prefixing with "X-Object-Meta-" is injective, and when the client yields its
headers (and, for Create, the read on the content reports no error) Create, Update and
Copy each issue one request whose headers hold, for every entry (k, v) of a well-formed
Metadata mapping, the value v under "X-Object-Meta-" ++ k; with well-formed default
headers no key occurs twice among the headers sent. -/
theorem metadata_headers (d : Collaborators) (c : Client) (hh : c.GetHeaders.2 = none) :
    Function.Injective (fun k : String => "X-Object-Meta-" ++ k) ∧
    (∀ opts : CreateOpts, opts.Metadata.WF →
      (∀ cs, opts.Content = some cs → (cs.Read cs.Len).2 = none) →
      ∃ call, (Objects.Create d c opts).requests = [call] ∧
        (∀ k v, (k, v) ∈ opts.Metadata →
          call.opts.MoreHeaders.get ("X-Object-Meta-" ++ k) = some v) ∧
        (c.GetHeaders.1.WF → call.opts.MoreHeaders.WF)) ∧
    (∀ opts : UpdateOpts, opts.Metadata.WF →
      ∃ call, (Objects.Update d c opts).requests = [call] ∧
        (∀ k v, (k, v) ∈ opts.Metadata →
          call.opts.MoreHeaders.get ("X-Object-Meta-" ++ k) = some v) ∧
        (c.GetHeaders.1.WF → call.opts.MoreHeaders.WF)) ∧
    (∀ opts : CopyOpts, opts.Metadata.WF →
      ∃ call, (Objects.Copy d c opts).requests = [call] ∧
        (∀ k v, (k, v) ∈ opts.Metadata →
          call.opts.MoreHeaders.get ("X-Object-Meta-" ++ k) = some v) ∧
        (c.GetHeaders.1.WF → call.opts.MoreHeaders.WF)) := by
  refine ⟨metaKey_injective, ?_, ?_, ?_⟩
  · intro opts hmd hread
    cases hc : opts.Content with
    | none =>
      exact ⟨_, congrArg Run.requests (create_run_nil d c opts hh hc),
        fun k v hkv => mergeMetadata_get_of_mem _ _ hmd k v hkv,
        fun hw => mergeMetadata_WF _ _ (mergeHeaders_WF _ _ hw)⟩
    | some cs =>
      exact ⟨_, congrArg Run.requests (create_run_read d c opts cs hh hc (hread cs hc)),
        fun k v hkv => mergeMetadata_get_of_mem _ _ hmd k v hkv,
        fun hw => mergeMetadata_WF _ _ (mergeHeaders_WF _ _ hw)⟩
  · intro opts hmd
    exact ⟨_, update_requests d c opts hh,
      fun k v hkv => mergeMetadata_get_of_mem _ _ hmd k v hkv,
      fun hw => mergeMetadata_WF _ _ (mergeHeaders_WF _ _ hw)⟩
  · intro opts hmd
    refine ⟨_, copy_requests d c opts hh, ?_, ?_⟩
    · intro k v hkv
      show (GoMap.set _ _ _).get _ = _
      rw [GoMap.get_set_ne _ _ _ _ (fun e => metaKey_ne_destination k e.symm)]
      exact mergeMetadata_get_of_mem _ _ hmd k v hkv
    · intro hw
      exact GoMap.WF_set _ _ _ (mergeMetadata_WF _ _ hw)

theorem metadata_headers_witness :
    (okClient [("X-Object-Meta-color", "blue")]).GetHeaders.2 = none ∧
    GoMap.WF [("color", "red"), ("size", "xl")] ∧
    ∃ call, (Objects.Update (fixedWorld (some okResponse, none))
        (okClient [("X-Object-Meta-color", "blue")])
        { Container := "c1", Name := "o1", Metadata := [("color", "red"), ("size", "xl")],
          Headers := [("X-Object-Meta-size", "s")] }).requests = [call] ∧
      (∀ k v, (k, v) ∈ ([("color", "red"), ("size", "xl")] : GoMap) →
        call.opts.MoreHeaders.get ("X-Object-Meta-" ++ k) = some v) ∧
      (GoMap.WF [("X-Object-Meta-color", "blue")] → call.opts.MoreHeaders.WF) :=
  ⟨rfl, by decide,
    (metadata_headers (fixedWorld (some okResponse, none))
      (okClient [("X-Object-Meta-color", "blue")]) rfl).2.2.1
      { Container := "c1", Name := "o1", Metadata := [("color", "red"), ("size", "xl")],
        Headers := [("X-Object-Meta-size", "s")] } (by decide)⟩

/-- C3: when the client yields its headers (and, for Create, the read on the content
reports no error), Create and Update each issue one request whose headers are, key by
key: the value of the metadata entry whose prefixed key is the key, otherwise the value
of the per-call Headers entry under the key, otherwise the client default; and every key
sent comes from one of the three.  Headers and Metadata are well-formed maps. -/
theorem header_merge_order (d : Collaborators) (c : Client) (hh : c.GetHeaders.2 = none) :
    (∀ opts : CreateOpts, opts.Headers.WF → opts.Metadata.WF →
      (∀ cs, opts.Content = some cs → (cs.Read cs.Len).2 = none) →
      ∃ call, (Objects.Create d c opts).requests = [call] ∧ ∀ key,
        (∀ k v, (k, v) ∈ opts.Metadata → "X-Object-Meta-" ++ k = key →
          call.opts.MoreHeaders.get key = some v) ∧
        ((∀ k ∈ opts.Metadata.keys, "X-Object-Meta-" ++ k ≠ key) →
          (∀ v, (key, v) ∈ opts.Headers → call.opts.MoreHeaders.get key = some v) ∧
          (key ∉ opts.Headers.keys →
            call.opts.MoreHeaders.get key = c.GetHeaders.1.get key)) ∧
        (key ∈ call.opts.MoreHeaders.keys →
          (∃ k ∈ opts.Metadata.keys, "X-Object-Meta-" ++ k = key) ∨
            key ∈ opts.Headers.keys ∨ key ∈ c.GetHeaders.1.keys)) ∧
    (∀ opts : UpdateOpts, opts.Headers.WF → opts.Metadata.WF →
      ∃ call, (Objects.Update d c opts).requests = [call] ∧ ∀ key,
        (∀ k v, (k, v) ∈ opts.Metadata → "X-Object-Meta-" ++ k = key →
          call.opts.MoreHeaders.get key = some v) ∧
        ((∀ k ∈ opts.Metadata.keys, "X-Object-Meta-" ++ k ≠ key) →
          (∀ v, (key, v) ∈ opts.Headers → call.opts.MoreHeaders.get key = some v) ∧
          (key ∉ opts.Headers.keys →
            call.opts.MoreHeaders.get key = c.GetHeaders.1.get key)) ∧
        (key ∈ call.opts.MoreHeaders.keys →
          (∃ k ∈ opts.Metadata.keys, "X-Object-Meta-" ++ k = key) ∨
            key ∈ opts.Headers.keys ∨ key ∈ c.GetHeaders.1.keys)) := by
  refine ⟨?_, ?_⟩
  · intro opts hhd hmd hread
    cases hc : opts.Content with
    | none =>
      exact ⟨_, congrArg Run.requests (create_run_nil d c opts hh hc),
        fun key => merged_get _ _ _ hhd hmd key⟩
    | some cs =>
      exact ⟨_, congrArg Run.requests (create_run_read d c opts cs hh hc (hread cs hc)),
        fun key => merged_get _ _ _ hhd hmd key⟩
  · intro opts hhd hmd
    exact ⟨_, update_requests d c opts hh, fun key => merged_get _ _ _ hhd hmd key⟩

theorem header_merge_order_witness :
    (okClient [("X-Auth-Token", "t"), ("X-Object-Meta-color", "blue")]).GetHeaders.2 = none ∧
    GoMap.WF [("X-Auth-Token", "u"), ("X-Object-Meta-color", "green")] ∧
    GoMap.WF [("color", "red")] ∧
    ∃ call, (Objects.Update (fixedWorld (some okResponse, none))
        (okClient [("X-Auth-Token", "t"), ("X-Object-Meta-color", "blue")])
        { Container := "c1", Name := "o1", Metadata := [("color", "red")],
          Headers := [("X-Auth-Token", "u"), ("X-Object-Meta-color", "green")] }).requests
          = [call] ∧ ∀ key,
      (∀ k v, (k, v) ∈ ([("color", "red")] : GoMap) → "X-Object-Meta-" ++ k = key →
        call.opts.MoreHeaders.get key = some v) ∧
      ((∀ k ∈ GoMap.keys [("color", "red")], "X-Object-Meta-" ++ k ≠ key) →
        (∀ v, (key, v) ∈ ([("X-Auth-Token", "u"), ("X-Object-Meta-color", "green")] : GoMap) →
          call.opts.MoreHeaders.get key = some v) ∧
        (key ∉ GoMap.keys [("X-Auth-Token", "u"), ("X-Object-Meta-color", "green")] →
          call.opts.MoreHeaders.get key
            = GoMap.get [("X-Auth-Token", "t"), ("X-Object-Meta-color", "blue")] key)) ∧
      (key ∈ call.opts.MoreHeaders.keys →
        (∃ k ∈ GoMap.keys [("color", "red")], "X-Object-Meta-" ++ k = key) ∨
          key ∈ GoMap.keys [("X-Auth-Token", "u"), ("X-Object-Meta-color", "green")] ∨
          key ∈ GoMap.keys [("X-Auth-Token", "t"), ("X-Object-Meta-color", "blue")]) :=
  ⟨rfl, by decide, by decide,
    (header_merge_order (fixedWorld (some okResponse, none))
      (okClient [("X-Auth-Token", "t"), ("X-Object-Meta-color", "blue")]) rfl).2
      { Container := "c1", Name := "o1", Metadata := [("color", "red")],
        Headers := [("X-Auth-Token", "u"), ("X-Object-Meta-color", "green")] }
      (by decide) (by decide)⟩

/-- C5, as stated, fails: a source that reports length 5 and yields 3 bytes with no error
does not make Create fail; the request is issued with the 3 bytes and two zero bytes. -/
theorem create_short_read_is_sent :
    ([104, 101, 108] : Bytes).length < 5 ∧
    Objects.Create (fixedWorld (some okResponse, none)) (okClient [])
        { Container := "c1", Name := "o1",
          Content := some ⟨5, fun _ => ([104, 101, 108], none)⟩ }
      = ⟨[⟨"PUT", "http://s/c1/o1", { ReqBody := [104, 101, 108, 0, 0] }⟩], [5],
          .returned none⟩ := by
  decide

/-- C5, amended: with the client's headers there and a content source given, Create
makes one read of Len() bytes; if the read reports an error e, Create returns e and
issues no request; if it reports none, Create issues one request whose body has exactly
Len() bytes, the bytes the read stored followed by zero bytes for the shortfall. -/
theorem create_read_outcome (d : Collaborators) (c : Client) (opts : CreateOpts)
    (cs : ContentSource) (hh : c.GetHeaders.2 = none) (hc : opts.Content = some cs) :
    (∀ e, (cs.Read cs.Len).2 = some e →
      Objects.Create d c opts = ⟨[], [cs.Len], .returned (some e)⟩) ∧
    ((cs.Read cs.Len).2 = none →
      ∃ call, (Objects.Create d c opts).requests = [call] ∧
        (Objects.Create d c opts).reads = [cs.Len] ∧
        call.opts.ReqBody = (cs.Read cs.Len).1.take cs.Len
          ++ List.replicate (cs.Len - (cs.Read cs.Len).1.length) 0 ∧
        call.opts.ReqBody.length = cs.Len) := by
  refine ⟨fun e he => create_run_read_error d c opts cs e hh hc he, ?_⟩
  intro hr
  refine ⟨_, congrArg Run.requests (create_run_read d c opts cs hh hc hr),
    congrArg Run.reads (create_run_read d c opts cs hh hc hr), rfl, ?_⟩
  simp only [fillBuffer, List.length_append, List.length_take, List.length_replicate]
  omega

theorem create_read_outcome_witness :
    (okClient []).GetHeaders.2 = none ∧
    (∀ e, (([104, 101, 108], none) : Bytes × Option GoError).2 = some e →
      Objects.Create (fixedWorld (some okResponse, none)) (okClient [])
          { Container := "c1", Name := "o1",
            Content := some ⟨5, fun _ => ([104, 101, 108], none)⟩ }
        = ⟨[], [5], .returned (some e)⟩) ∧
    ((([104, 101, 108], none) : Bytes × Option GoError).2 = none →
      ∃ call, (Objects.Create (fixedWorld (some okResponse, none)) (okClient [])
          { Container := "c1", Name := "o1",
            Content := some ⟨5, fun _ => ([104, 101, 108], none)⟩ }).requests = [call] ∧
        (Objects.Create (fixedWorld (some okResponse, none)) (okClient [])
          { Container := "c1", Name := "o1",
            Content := some ⟨5, fun _ => ([104, 101, 108], none)⟩ }).reads = [5] ∧
        call.opts.ReqBody = [104, 101, 108] ++ [0, 0] ∧
        call.opts.ReqBody.length = 5) :=
  ⟨rfl, create_read_outcome (fixedWorld (some okResponse, none)) (okClient [])
    { Container := "c1", Name := "o1", Content := some ⟨5, fun _ => ([104, 101, 108], none)⟩ }
    ⟨5, fun _ => ([104, 101, 108], none)⟩ rfl rfl⟩

/-- C7, as stated, fails: Delete called with the per-call header ("X-Foo", "bar") sends
the client's default headers only; "X-Foo" is not among the headers sent. -/
theorem delete_drops_custom_header :
    (Objects.Delete (fixedWorld (some okResponse, none)) (okClient [("X-Auth-Token", "t")])
        { Container := "c1", Name := "o1", Headers := [("X-Foo", "bar")] }).requests
      = [⟨"DELETE", "http://s/c1/o1", { MoreHeaders := [("X-Auth-Token", "t")] }⟩] ∧
    GoMap.get [("X-Auth-Token", "t")] "X-Foo" = none := by
  decide

/-- C7, amended: when the client yields its headers, Delete issues one DELETE request
whose headers are exactly the client's default headers: no per-call header and no
metadata-derived header is merged. -/
theorem delete_sends_default_headers (d : Collaborators) (c : Client) (opts : DeleteOpts)
    (hh : c.GetHeaders.2 = none) :
    ∃ call, (Objects.Delete d c opts).requests = [call] ∧ call.method = "DELETE" ∧
      call.opts.MoreHeaders = c.GetHeaders.1 :=
  ⟨_, delete_requests d c opts hh, rfl, rfl⟩

theorem delete_sends_default_headers_witness :
    (okClient [("X-Auth-Token", "t")]).GetHeaders.2 = none ∧
    ∃ call, (Objects.Delete (fixedWorld (some okResponse, none))
        (okClient [("X-Auth-Token", "t")])
        { Container := "c1", Name := "o1", Headers := [("X-Foo", "bar")] }).requests
        = [call] ∧ call.method = "DELETE" ∧
      call.opts.MoreHeaders = [("X-Auth-Token", "t")] :=
  ⟨rfl, delete_sends_default_headers _ _ _ rfl⟩

theorem fillBuffer_full (n : Nat) (bs : Bytes) (h : bs.length = n) :
    bs.take n ++ List.replicate (n - bs.length) 0 = bs := by
  subst h
  simp

/-- C9, as stated, fails: with the executor reporting no error, a source that reports
length 5 and whose read stores the 2 bytes "he" with no error makes Create send the
5-byte buffer "he" followed by three zero bytes and return nil; the body is not the
bytes of the source. -/
theorem create_body_is_read_buffer :
    Objects.Create (fixedWorld (some okResponse, none)) (okClient [])
        { Container := "c1", Name := "o1", Metadata := [("color", "red")],
          Content := some ⟨5, fun _ => ([104, 101], none)⟩ }
      = ⟨[⟨"PUT", "http://s/c1/o1",
            { ReqBody := [104, 101, 0, 0, 0],
              MoreHeaders := [("X-Object-Meta-color", "red")] }⟩],
          [5], .returned none⟩ ∧
    ([104, 101, 0, 0, 0] : Bytes) ≠ [104, 101] ∧
    ([104, 101, 0, 0, 0] : Bytes) ≠ [104, 101, 108, 108, 111] := by
  decide

/-- C9, amended: with the client's headers there, a content source whose one read of
Len() bytes reports no error, and an executor that reports no error, Create makes that
read, issues one PUT to the object URL plus the query whose ReqBody option is the
Len()-byte buffer after the read (the bytes stored, then zero bytes for a shortfall)
and whose headers are the merged ones, and returns nil; the ReqBody is exactly the bytes
read when the read stores all Len() bytes.  With a nil content source Create makes no
read and the ReqBody is empty. -/
theorem create_sends_content (d : Collaborators) (c : Client) (opts : CreateOpts)
    (hh : c.GetHeaders.2 = none) :
    (∀ cs, opts.Content = some cs → (cs.Read cs.Len).2 = none →
      (d.Request
        ⟨"PUT", c.GetObjectURL opts.Container opts.Name ++ d.BuildQuery opts.Params,
          { ReqBody := (cs.Read cs.Len).1.take cs.Len
              ++ List.replicate (cs.Len - (cs.Read cs.Len).1.length) 0,
            MoreHeaders := mergeMetadata (mergeHeaders c.GetHeaders.1 opts.Headers)
              opts.Metadata }⟩).2 = none →
      Objects.Create d c opts =
        ⟨[⟨"PUT", c.GetObjectURL opts.Container opts.Name ++ d.BuildQuery opts.Params,
            { ReqBody := (cs.Read cs.Len).1.take cs.Len
                ++ List.replicate (cs.Len - (cs.Read cs.Len).1.length) 0,
              MoreHeaders := mergeMetadata (mergeHeaders c.GetHeaders.1 opts.Headers)
                opts.Metadata }⟩],
          [cs.Len], .returned none⟩ ∧
      ((cs.Read cs.Len).1.length = cs.Len →
        (cs.Read cs.Len).1.take cs.Len
            ++ List.replicate (cs.Len - (cs.Read cs.Len).1.length) 0
          = (cs.Read cs.Len).1)) ∧
    (opts.Content = none →
      (d.Request
        ⟨"PUT", c.GetObjectURL opts.Container opts.Name ++ d.BuildQuery opts.Params,
          { ReqBody := [],
            MoreHeaders := mergeMetadata (mergeHeaders c.GetHeaders.1 opts.Headers)
              opts.Metadata }⟩).2 = none →
      Objects.Create d c opts =
        ⟨[⟨"PUT", c.GetObjectURL opts.Container opts.Name ++ d.BuildQuery opts.Params,
            { ReqBody := [],
              MoreHeaders := mergeMetadata (mergeHeaders c.GetHeaders.1 opts.Headers)
                opts.Metadata }⟩],
          [], .returned none⟩) := by
  refine ⟨?_, ?_⟩
  · intro cs hc hr hreq
    refine ⟨?_, ?_⟩
    · have hrun := create_run_read d c opts cs hh hc hr
      simp only [fillBuffer] at hrun
      rw [hrun, hreq]
    · intro hlen
      exact fillBuffer_full _ _ hlen
  · intro hc hreq
    rw [create_run_nil d c opts hh hc, hreq]

theorem create_sends_content_witness :
    (okClient []).GetHeaders.2 = none ∧
    Objects.Create (fixedWorld (some okResponse, none)) (okClient [])
        { Container := "c1", Name := "o1", Metadata := [("color", "red")],
          Content := some ⟨5, fun _ => ([104, 101, 108, 108, 111], none)⟩ }
      = ⟨[⟨"PUT", "http://s/c1/o1",
            { ReqBody := [104, 101, 108, 108, 111],
              MoreHeaders := [("X-Object-Meta-color", "red")] }⟩],
          [5], .returned none⟩ :=
  ⟨rfl, ((create_sends_content (fixedWorld (some okResponse, none)) (okClient [])
    { Container := "c1", Name := "o1", Metadata := [("color", "red")],
      Content := some ⟨5, fun _ => ([104, 101, 108, 108, 111], none)⟩ } rfl).1
    ⟨5, fun _ => ([104, 101, 108, 108, 111], none)⟩ rfl rfl rfl).1⟩

/-- C10 at the failing input: the executor answers with a nil response and the error
"dial"; List, Download and Get issue their request and then panic on the nil response,
while Create, Copy, Delete and Update return the error. -/
theorem nil_response_panics :
    Objects.List (fixedWorld (none, some ⟨"dial"⟩)) (okClient []) { Container := "c1" }
      = ⟨[⟨"GET", "http://s/c1", { Accept := "text/plain" }⟩], [], .panicked⟩ ∧
    Objects.Download (fixedWorld (none, some ⟨"dial"⟩)) (okClient [])
        { Container := "c1", Name := "o1" }
      = ⟨[⟨"GET", "http://s/c1/o1", { }⟩], [], .panicked⟩ ∧
    Objects.Get (fixedWorld (none, some ⟨"dial"⟩)) (okClient [])
        { Container := "c1", Name := "o1" }
      = ⟨[⟨"HEAD", "http://s/c1/o1", { }⟩], [], .panicked⟩ ∧
    (Objects.Create (fixedWorld (none, some ⟨"dial"⟩)) (okClient [])
        { Container := "c1", Name := "o1" }).outcome = .returned (some ⟨"dial"⟩) ∧
    (Objects.Copy (fixedWorld (none, some ⟨"dial"⟩)) (okClient [])
        { Container := "c1", Name := "o1", NewContainer := "c2", NewName := "o2" }).outcome
      = .returned (some ⟨"dial"⟩) ∧
    (Objects.Delete (fixedWorld (none, some ⟨"dial"⟩)) (okClient [])
        { Container := "c1", Name := "o1" }).outcome = .returned (some ⟨"dial"⟩) ∧
    (Objects.Update (fixedWorld (none, some ⟨"dial"⟩)) (okClient [])
        { Container := "c1", Name := "o1" }).outcome = .returned (some ⟨"dial"⟩) := by
  decide
